import Mathlib

/-!
Shallow embedding of the insteon-mqtt handler state machines
(src/insteon_mqtt/handler/StandardCmd.py, DeviceRefresh.py,
DeviceDbModify.py).  Pure Python methods become Lean functions; the
mutable handler objects become explicit state records threaded through
each call; observable side effects (protocol.send, database calls, the
completion callback) become explicit effect traces returned alongside
the new state and the handler result.
-/

namespace InsteonMqtt

/-- Device address: opaque equality-comparable identifier (spec section 3). -/
abbrev Addr := Nat

/-- One protocol byte (handlers only compare bytes, never do arithmetic). -/
abbrev Byte := Nat

/-- Modelled from the spec: reply kind flags of an inbound standard message
(Msg.Flags.Type in the message module, which is not part of the handler
sources).  The spec lists DIRECT_ACK, DIRECT_NAK, BROADCAST among others. -/
inductive FlagsType
  | direct
  | directAck
  | directNak
  | allLinkBroadcast
  | allLinkCleanup
  | cleanupAck
  | cleanupNak
  | broadcast
deriving DecidableEq, Repr

/-- Modelled from the spec: the typed protocol messages offered to handlers
(the message module is not part of the handler sources).  An outbound
standard or extended message carries a destination address, cmd1/cmd2 bytes
and, once echoed back by the modem, an ack flag; an inbound standard message
carries a source address, a reply-kind flag and cmd1/cmd2.  In the Python
source OutExtended subclasses OutStandard, so an isinstance check against
OutStandard also accepts extended messages; the embedding mirrors that by
treating both outbound constructors alike wherever the source tests
isinstance OutStandard. -/
inductive InsteonMsg
  | outStandard (to_addr : Addr) (cmd1 cmd2 : Byte) (is_ack : Bool)
  | outExtended (to_addr : Addr) (cmd1 cmd2 : Byte) (data : List Byte) (is_ack : Bool)
  | inpStandard (from_addr : Addr) (flags_type : FlagsType) (cmd1 cmd2 : Byte)
deriving DecidableEq, Repr

/-- The cmd1 byte of any message. -/
def InsteonMsg.cmd1 : InsteonMsg → Byte
  | .outStandard _ c1 _ _ => c1
  | .outExtended _ c1 _ _ _ => c1
  | .inpStandard _ _ c1 _ => c1

/-- Modelled from the spec: Msg.OutExtended.direct builds an extended
direct outbound message to the given address with the given cmd1, cmd2
and payload bytes (not yet acked by the modem). -/
def OutExtended.direct (to_addr : Addr) (c1 c2 : Byte) (data : List Byte) : InsteonMsg :=
  .outExtended to_addr c1 c2 data false

/-- Handler result codes Msg.UNKNOWN / Msg.CONTINUE / Msg.FINISHED. -/
inductive HandlerResult
  | UNKNOWN
  | CONTINUE
  | FINISHED
deriving DecidableEq, Repr

/-!  StandardCmd (src/insteon_mqtt/handler/StandardCmd.py) -/

/-- State of a StandardCmd handler: the address and cmd1 byte captured from
the outbound message at construction.  The callback itself is external; the
messages passed to it are reported in the effect trace. -/
structure StandardCmd where
  addr : Addr
  cmd : Byte
deriving DecidableEq, Repr

/-- StandardCmd constructor: captures msg.to_addr and msg.cmd1. -/
def StandardCmd.init (to_addr : Addr) (c1 : Byte) : StandardCmd :=
  ⟨to_addr, c1⟩

/-- StandardCmd.msg_received.  Returns the (unchanged) state, the handler
result, and the list of messages passed to the callback during the call. -/
def StandardCmd.msg_received (s : StandardCmd) (msg : InsteonMsg) :
    StandardCmd × HandlerResult × List InsteonMsg :=
  match msg with
  | .outStandard to_addr c1 _ _ =>
      if to_addr = s.addr ∧ c1 = s.cmd then (s, .CONTINUE, [])
      else (s, .UNKNOWN, [])
  | .outExtended to_addr c1 _ _ _ =>
      if to_addr = s.addr ∧ c1 = s.cmd then (s, .CONTINUE, [])
      else (s, .UNKNOWN, [])
  | .inpStandard from_addr _ c1 _ =>
      if from_addr = s.addr ∧ c1 = s.cmd then (s, .FINISHED, [msg])
      else (s, .UNKNOWN, [])

/-!  DeviceRefresh (src/insteon_mqtt/handler/DeviceRefresh.py) -/

/-- Observable side effects of a DeviceRefresh call: device.handle_refresh,
device.db.clear, a resend of the stored probe message via protocol.send
with self as handler, and the send of the database dump request together
with a DeviceDbGet sub-handler whose completion callback will, on success,
call device.db.set_delta with the recorded delta byte. -/
inductive RefreshEffect
  | handleRefresh (msg : InsteonMsg)
  | dbClear
  | resend (msg : InsteonMsg)
  | sendDbDump (msg : InsteonMsg) (delta : Byte)
deriving DecidableEq, Repr

/-- State of a DeviceRefresh handler.  The device collaborator is
represented by its address and by the oracle dbIsCurrent for
device.db.is_current; expire_time is the deadline held by the Base
handler. -/
structure DeviceRefresh where
  addr : Addr
  msg : InsteonMsg
  force : Bool
  send_count : Nat
  num_retry : Nat
  expire_time : Nat
  dbIsCurrent : Byte → Bool

/-- DeviceRefresh constructor: send_count starts at 1. -/
def DeviceRefresh.init (addr : Addr) (msg : InsteonMsg) (force : Bool)
    (num_retry : Nat) (expire_time : Nat) (dbIsCurrent : Byte → Bool) :
    DeviceRefresh :=
  ⟨addr, msg, force, 1, num_retry, expire_time, dbIsCurrent⟩

/-- Modelled from the spec: the Base handler expiry check (handler/Base.py
is not among the sources) compares the current time against the deadline
and returns true past the deadline, with no side effect. -/
def baseIsExpired (expire_time t : Nat) : Bool :=
  expire_time ≤ t

/-- DeviceRefresh.is_expired.  Returns the new state, the boolean result,
and the effect trace (a resend of the stored probe when retries remain). -/
def DeviceRefresh.is_expired (s : DeviceRefresh) (t : Nat) :
    DeviceRefresh × Bool × List RefreshEffect :=
  if ¬ baseIsExpired s.expire_time t then (s, false, [])
  else if s.send_count < s.num_retry then
    ({ s with send_count := s.send_count + 1 }, true, [.resend s.msg])
  else (s, true, [])

/-- DeviceRefresh.msg_received. -/
def DeviceRefresh.msg_received (s : DeviceRefresh) (msg : InsteonMsg) :
    DeviceRefresh × HandlerResult × List RefreshEffect :=
  match msg with
  | .outStandard to_addr _ _ is_ack =>
      if to_addr = s.addr then
        if is_ack then (s, .CONTINUE, []) else (s, .FINISHED, [])
      else (s, .UNKNOWN, [])
  | .outExtended to_addr _ _ _ is_ack =>
      if to_addr = s.addr then
        if is_ack then (s, .CONTINUE, []) else (s, .FINISHED, [])
      else (s, .UNKNOWN, [])
  | .inpStandard from_addr _ c1 _ =>
      if from_addr = s.addr then
        let s1 := { s with send_count := s.num_retry }
        if ¬ s.force ∧ s.dbIsCurrent c1 then
          (s1, .FINISHED, [.handleRefresh msg])
        else
          (s1, .FINISHED,
            [.handleRefresh msg, .dbClear,
             .sendDbDump (OutExtended.direct s.addr 0x2f 0x00 (List.replicate 14 0)) c1])
      else (s, .UNKNOWN, [])

/-- Repeated is_expired checks at the given sequence of times, threading
the handler state and accumulating the effect trace. -/
def iterateExpired : DeviceRefresh → List Nat → DeviceRefresh × List RefreshEffect
  | s, [] => (s, [])
  | s, t :: ts =>
      let r := DeviceRefresh.is_expired s t
      let k := iterateExpired r.1 ts
      (k.1, r.2.2 ++ k.2)

/-- The probe messages resent by a trace of refresh effects. -/
def resendList (es : List RefreshEffect) : List InsteonMsg :=
  es.filterMap fun e =>
    match e with
    | .resend m => some m
    | _ => none

/-- Number of resends in a trace of refresh effects. -/
def countResends (es : List RefreshEffect) : Nat :=
  (resendList es).length

/-!  DeviceDbModify (src/insteon_mqtt/handler/DeviceDbModify.py) -/

/-- One all-link database record (spec section 3: group, address, usage
flag, data bytes).  The handler treats entries as opaque values. -/
structure DeviceEntry where
  group : Byte
  addr : Addr
  in_use : Bool
  data : List Byte
deriving DecidableEq, Repr

/-- Observable side effects of a DeviceDbModify call: db.add_entry, a
protocol.send of the next chained message with self re-installed as
handler, and the completion callback on_done. -/
inductive DbModEffect
  | addEntry (e : DeviceEntry)
  | send (msg : InsteonMsg)
  | onDone (success : Bool) (text : String) (entry : Option DeviceEntry)
deriving DecidableEq, Repr

/-- State of a DeviceDbModify handler: the device database is represented
by its address (db.add_entry calls appear in the effect trace); entry is
the entry tied to the in-flight command, orig_entry the first entry ever
submitted, and next the FIFO queue of (message, entry) pairs still to
send. -/
structure DeviceDbModify where
  db_addr : Addr
  entry : DeviceEntry
  orig_entry : DeviceEntry
  next : List (InsteonMsg × DeviceEntry)
deriving DecidableEq, Repr

/-- DeviceDbModify constructor: stores the entry twice (current and
original) and starts with an empty queue. -/
def DeviceDbModify.init (db_addr : Addr) (entry : DeviceEntry) : DeviceDbModify :=
  ⟨db_addr, entry, entry, []⟩

/-- DeviceDbModify.add_update: append a future (message, entry) pair. -/
def DeviceDbModify.add_update (s : DeviceDbModify) (msg : InsteonMsg)
    (entry : DeviceEntry) : DeviceDbModify :=
  { s with next := s.next ++ [(msg, entry)] }

/-- DeviceDbModify.msg_received. -/
def DeviceDbModify.msg_received (s : DeviceDbModify) (msg : InsteonMsg) :
    DeviceDbModify × HandlerResult × List DbModEffect :=
  match msg with
  | .outStandard _ _ _ _ => (s, .UNKNOWN, [])
  | .outExtended to_addr c1 _ _ is_ack =>
      if to_addr = s.db_addr ∧ c1 = 0x2f then
        if is_ack then (s, .CONTINUE, [])
        else (s, .FINISHED,
          [.onDone false "Device database update failed" none])
      else (s, .UNKNOWN, [])
  | .inpStandard from_addr flags_type c1 _ =>
      if from_addr = s.db_addr ∧ c1 = 0x2f then
        if flags_type = .directAck then
          match s.next with
          | [] =>
              (s, .FINISHED,
                [.addEntry s.entry,
                 .onDone true "Device database update complete" (some s.orig_entry)])
          | (m, e) :: rest =>
              ({ s with entry := e, next := rest }, .FINISHED,
                [.addEntry s.entry, .send m])
        else if flags_type = .directNak then
          (s, .FINISHED, [.onDone false "Device database update failed" none])
        else
          (s, .FINISHED, [.onDone false "Device database update failed" none])
      else (s, .UNKNOWN, [])

/-- Whether a db-modify effect is a protocol.send of a chained message. -/
def isSend : DbModEffect → Bool
  | .send _ => true
  | _ => false

/-- Result of running a DeviceDbModify chain over a message sequence. -/
structure RunResult where
  state : DeviceDbModify
  trace : List DbModEffect
  finished : Bool
deriving Repr

/-- Run a DeviceDbModify chain: offer messages one at a time, accumulating
the effect trace.  The run is terminal when a call returns FINISHED
without re-installing the handler on a freshly sent chained message (the
dispatch loop stops offering messages to a terminally finished handler,
per the handler contract; a FINISHED call that performed a send continues
the chain under the re-installed handler). -/
def runDbModify : DeviceDbModify → List InsteonMsg → RunResult
  | s, [] => ⟨s, [], false⟩
  | s, m :: ms =>
      let r := DeviceDbModify.msg_received s m
      if r.2.1 = .FINISHED ∧ ¬ (r.2.2.any isSend = true) then ⟨r.1, r.2.2, true⟩
      else
        let k := runDbModify r.1 ms
        ⟨k.state, r.2.2 ++ k.trace, k.finished⟩

/-- The (success, entry) arguments of the on_done calls in a trace. -/
def onDoneList (es : List DbModEffect) : List (Bool × Option DeviceEntry) :=
  es.filterMap fun e =>
    match e with
    | .onDone b _ x => some (b, x)
    | _ => none

/-- The entries passed to db.add_entry in a trace, in call order. -/
def addEntryList (es : List DbModEffect) : List DeviceEntry :=
  es.filterMap fun e =>
    match e with
    | .addEntry x => some x
    | _ => none

/-- Number of db.add_entry calls in a trace. -/
def countAddEntry (es : List DbModEffect) : Nat :=
  (addEntryList es).length

/-- Whether a message is the direct-ack reply this DeviceDbModify handler
claims: an inbound standard message from the database device address with
cmd1 = 0x2f and flag type DIRECT_ACK. -/
def isClaimedDirectAck (s : DeviceDbModify) (m : InsteonMsg) : Bool :=
  match m with
  | .inpStandard from_addr flags_type c1 _ =>
      from_addr = s.db_addr ∧ c1 = 0x2f ∧ flags_type = .directAck
  | _ => false

/-!  Concrete fixtures used to instantiate the theorems -/

/-- Example entry submitted at construction of the example chain. -/
def entryA : DeviceEntry := ⟨1, 7, true, []⟩

/-- Example entry submitted via add_update. -/
def entryB : DeviceEntry := ⟨2, 7, true, [3]⟩

/-- Example chained database-write message for entryB. -/
def chainMsgB : InsteonMsg := OutExtended.direct 7 0x2f 0x02 (List.replicate 14 0)

/-- Example two-step DeviceDbModify chain (construction entry plus one
add_update). -/
def dbModEx : DeviceDbModify :=
  DeviceDbModify.add_update (DeviceDbModify.init 7 entryA) chainMsgB entryB

/-- Example message sequence driving the two-step chain to success:
echo-ack, direct-ack, echo-ack, direct-ack. -/
def dbModMsgsEx : List InsteonMsg :=
  [.outExtended 7 0x2f 0x02 [] true, .inpStandard 7 .directAck 0x2f 0,
   .outExtended 7 0x2f 0x02 [] true, .inpStandard 7 .directAck 0x2f 0]

/-- Example DeviceRefresh handler: force = false, database reported
current by the oracle, three retries, deadline at time 10. -/
def refreshEx : DeviceRefresh :=
  DeviceRefresh.init 3 (.outStandard 3 0x19 0 false) false 3 10 (fun _ => true)

/-- Example DeviceRefresh handler with force = true (db dump always
requested). -/
def refreshStaleEx : DeviceRefresh :=
  DeviceRefresh.init 3 (.outStandard 3 0x19 0 false) true 3 10 (fun _ => false)

/-- Example StandardCmd handler expecting address 9 and cmd 0x11. -/
def stdCmdEx : StandardCmd := StandardCmd.init 9 0x11

/-!  Helper lemmas -/

theorem onDoneList_append (a b : List DbModEffect) :
    onDoneList (a ++ b) = onDoneList a ++ onDoneList b := by
  simp [onDoneList, List.filterMap_append]

theorem addEntryList_append (a b : List DbModEffect) :
    addEntryList (a ++ b) = addEntryList a ++ addEntryList b := by
  simp [addEntryList, List.filterMap_append]

theorem resendList_append (a b : List RefreshEffect) :
    resendList (a ++ b) = resendList a ++ resendList b := by
  simp [resendList, List.filterMap_append]

/-- Enumeration of the possible outcomes of one DeviceDbModify.msg_received
call: not claimed, echo-ack, failure callback (echo-nak, direct-nak or
unexpected reply kind), final direct-ack with success callback, or
intermediate direct-ack that pops the queue head and re-sends. -/
theorem DeviceDbModify.msg_received_cases (s : DeviceDbModify) (m : InsteonMsg) :
    DeviceDbModify.msg_received s m = (s, .UNKNOWN, [])
    ∨ DeviceDbModify.msg_received s m = (s, .CONTINUE, [])
    ∨ DeviceDbModify.msg_received s m
        = (s, .FINISHED, [.onDone false "Device database update failed" none])
    ∨ (s.next = []
        ∧ DeviceDbModify.msg_received s m
          = (s, .FINISHED, [.addEntry s.entry,
              .onDone true "Device database update complete" (some s.orig_entry)]))
    ∨ (∃ m0 e0 rest, s.next = (m0, e0) :: rest
        ∧ DeviceDbModify.msg_received s m
          = ({ s with entry := e0, next := rest }, .FINISHED,
             [.addEntry s.entry, .send m0])) := by
  cases m with
  | outStandard to_addr c1 c2 is_ack =>
      exact Or.inl rfl
  | outExtended to_addr c1 c2 d is_ack =>
      by_cases h : to_addr = s.db_addr ∧ c1 = 0x2f
      · cases is_ack
        · refine Or.inr (Or.inr (Or.inl ?_))
          simp [DeviceDbModify.msg_received, h]
        · refine Or.inr (Or.inl ?_)
          simp [DeviceDbModify.msg_received, h]
      · refine Or.inl ?_
        simp [DeviceDbModify.msg_received, h]
  | inpStandard from_addr flags_type c1 c2 =>
      by_cases h : from_addr = s.db_addr ∧ c1 = 0x2f
      · by_cases hack : flags_type = FlagsType.directAck
        · cases hnext : s.next with
          | nil =>
              refine Or.inr (Or.inr (Or.inr (Or.inl ⟨rfl, ?_⟩)))
              simp [DeviceDbModify.msg_received, h, hack, hnext]
          | cons p rest =>
              obtain ⟨m0, e0⟩ := p
              refine Or.inr (Or.inr (Or.inr (Or.inr ⟨m0, e0, rest, rfl, ?_⟩)))
              simp [DeviceDbModify.msg_received, h, hack, hnext]
        · refine Or.inr (Or.inr (Or.inl ?_))
          by_cases hnak : flags_type = FlagsType.directNak
          · simp [DeviceDbModify.msg_received, h, hack, hnak]
          · simp [DeviceDbModify.msg_received, h, hack, hnak]
      · refine Or.inl ?_
        simp [DeviceDbModify.msg_received, h]

/-- Main invariant of a DeviceDbModify chain run: the completion callback
fires exactly once on a terminal run and never otherwise; a success
callback carries the original entry and happens exactly when all
queued steps (construction entry plus pending queue) have been applied;
a failure callback carries no entry; and the entries applied to the
database mirror are a prefix (in FIFO order) of the submitted entries. -/
theorem runDbModify_spec (ms : List InsteonMsg) (s : DeviceDbModify) :
    (onDoneList (runDbModify s ms).trace).length
        = (if (runDbModify s ms).finished = true then 1 else 0)
    ∧ (∀ p ∈ onDoneList (runDbModify s ms).trace,
        (p = (true, some s.orig_entry)
          ∧ countAddEntry (runDbModify s ms).trace = s.next.length + 1)
        ∨ p = (false, none))
    ∧ addEntryList (runDbModify s ms).trace
        = (s.entry :: s.next.map Prod.snd).take (countAddEntry (runDbModify s ms).trace) := by
  induction ms generalizing s with
  | nil =>
      simp [runDbModify, onDoneList, addEntryList, countAddEntry]
  | cons m ms ih =>
      rcases DeviceDbModify.msg_received_cases s m with
        h | h | h | ⟨hnext, h⟩ | ⟨m0, e0, rest, hnext, h⟩
      · have hrun : runDbModify s (m :: ms) = runDbModify s ms := by
          simp [runDbModify, h]
        rw [hrun]
        exact ih s
      · have hrun : runDbModify s (m :: ms) = runDbModify s ms := by
          simp [runDbModify, h]
        rw [hrun]
        exact ih s
      · have hrun : runDbModify s (m :: ms)
            = ⟨s, [.onDone false "Device database update failed" none], true⟩ := by
          simp [runDbModify, h, isSend]
        rw [hrun]
        refine ⟨by simp [onDoneList], ?_, by simp [addEntryList, countAddEntry]⟩
        intro p hp
        simp [onDoneList] at hp
        exact Or.inr hp
      · have hrun : runDbModify s (m :: ms)
            = ⟨s, [.addEntry s.entry,
                   .onDone true "Device database update complete" (some s.orig_entry)],
               true⟩ := by
          simp [runDbModify, h, isSend]
        rw [hrun]
        refine ⟨by simp [onDoneList], ?_, ?_⟩
        · intro p hp
          simp [onDoneList] at hp
          refine Or.inl ⟨hp, ?_⟩
          simp [countAddEntry, addEntryList, hnext]
        · simp [addEntryList, countAddEntry, hnext]
      · have hrun : runDbModify s (m :: ms)
            = ⟨(runDbModify { s with entry := e0, next := rest } ms).state,
               .addEntry s.entry :: .send m0 ::
                 (runDbModify { s with entry := e0, next := rest } ms).trace,
               (runDbModify { s with entry := e0, next := rest } ms).finished⟩ := by
          simp [runDbModify, h, isSend]
        rw [hrun]
        obtain ⟨ih1, ih2, ih3⟩ := ih { s with entry := e0, next := rest }
        have hcount : ∀ l : List DbModEffect,
            countAddEntry (.addEntry s.entry :: .send m0 :: l)
              = countAddEntry l + 1 := by
          intro l
          simp [countAddEntry, addEntryList]
        refine ⟨?_, ?_, ?_⟩
        · simpa [onDoneList] using ih1
        · intro p hp
          simp only [onDoneList, List.filterMap_cons] at hp
          rcases ih2 p (by simpa [onDoneList] using hp) with ⟨hp1, hp2⟩ | hfail
          · refine Or.inl ⟨hp1, ?_⟩
            rw [hcount]
            simp only at hp2
            rw [hp2]
            simp [hnext]
          · exact Or.inr hfail
        · rw [hcount]
          simp only [addEntryList, List.filterMap_cons] at ih3 ⊢
          rw [hnext]
          simp only [List.map_cons, List.take_succ_cons]
          rw [ih3]

theorem countResends_append (a b : List RefreshEffect) :
    countResends (a ++ b) = countResends a + countResends b := by
  simp [countResends, resendList, List.filterMap_append]

/-- Pre-deadline expiry checks leave the handler untouched and send
nothing, however often they are repeated. -/
theorem iterateExpired_pre_deadline : ∀ (ts : List Nat) (s : DeviceRefresh),
    (∀ u ∈ ts, u < s.expire_time) → iterateExpired s ts = (s, [])
  | [], _, _ => rfl
  | t :: ts, s, h => by
      have h1 : ¬ baseIsExpired s.expire_time t = true := by
        have := h t (List.mem_cons_self t ts)
        simp [baseIsExpired]
        omega
      have hstep : DeviceRefresh.is_expired s t = (s, false, []) := by
        simp [DeviceRefresh.is_expired, h1]
      have ih := iterateExpired_pre_deadline ts s
        (fun u hu => h u (List.mem_cons_of_mem t hu))
      simp [iterateExpired, hstep, ih]

/-- Expired checks resend until send_count reaches num_retry: over a run
of checks at expired times the number of resends is the number of checks
capped by the remaining retry budget. -/
theorem countResends_iterateExpired : ∀ (ts : List Nat) (s : DeviceRefresh),
    (∀ u ∈ ts, s.expire_time ≤ u) →
    countResends (iterateExpired s ts).2
      = min ts.length (s.num_retry - s.send_count)
  | [], _, _ => by simp [iterateExpired, countResends, resendList]
  | t :: ts, s, h => by
      have ht : baseIsExpired s.expire_time t = true := by
        simp [baseIsExpired]
        exact h t (List.mem_cons_self t ts)
      have hts : ∀ u ∈ ts, s.expire_time ≤ u :=
        fun u hu => h u (List.mem_cons_of_mem t hu)
      by_cases hc : s.send_count < s.num_retry
      · have hstep : DeviceRefresh.is_expired s t
            = ({ s with send_count := s.send_count + 1 }, true, [.resend s.msg]) := by
          simp [DeviceRefresh.is_expired, ht, hc]
        have ihs := countResends_iterateExpired ts
          { s with send_count := s.send_count + 1 } hts
        simp only [iterateExpired, hstep, countResends_append] at *
        simp only [countResends, resendList, List.filterMap_cons, List.filterMap_nil] at *
        simp only [List.length_cons, List.length_nil] at *
        omega
      · have hstep : DeviceRefresh.is_expired s t = (s, true, []) := by
          simp [DeviceRefresh.is_expired, ht, hc]
        have ihs := countResends_iterateExpired ts s hts
        simp only [iterateExpired, hstep, List.nil_append]
        simp only at ihs
        rw [ihs]
        omega

/-!  Claim theorems -/

/-- C3 (counterexample): the claim says a DeviceRefresh handler claims an
outbound-standard echo if and only if both the destination address and the
command byte match; here the echo to the right address carries cmd1 = 0x42
while the stored probe has cmd1 = 0x19, yet msg_received claims it and
returns CONTINUE instead of the claimed UNKNOWN. -/
theorem deviceRefresh_echo_cmd_mismatch_claimed :
    (DeviceRefresh.msg_received refreshEx (.outStandard 3 0x42 0 true)).2.1
        = HandlerResult.CONTINUE
    ∧ (DeviceRefresh.msg_received refreshEx (.outStandard 3 0x42 0 true)).2.1
        ≠ HandlerResult.UNKNOWN
    ∧ InsteonMsg.cmd1 refreshEx.msg = 0x19
    ∧ (0x42 : Byte) ≠ 0x19
    ∧ (3 : Addr) = refreshEx.addr := by
  refine ⟨rfl, by decide, rfl, by decide, rfl⟩

/-- C3 (amended): a DeviceRefresh handler claims an outbound-standard echo
if and only if the destination address matches the handler address; the
command byte is not examined.  A matching ACK echo returns CONTINUE, a
matching NAK echo returns FINISHED, a non-matching echo returns UNKNOWN;
the state is unchanged and no effect is produced in every case. -/
theorem deviceRefresh_echo_claims_addr_only (s : DeviceRefresh) (toA : Addr)
    (c1 c2 : Byte) (ack : Bool) :
    DeviceRefresh.msg_received s (.outStandard toA c1 c2 ack)
      = (s,
         if toA = s.addr then
           (if ack = true then HandlerResult.CONTINUE else HandlerResult.FINISHED)
         else HandlerResult.UNKNOWN,
         []) := by
  by_cases h : toA = s.addr
  · cases ack <;> simp [DeviceRefresh.msg_received, h]
  · simp [DeviceRefresh.msg_received, h]

/-- C4: bounded retry.  An expired check with send_count < num_retry
increments send_count, resends the stored probe and returns true; an
expired check with send_count at num_retry returns true without resending;
and from a fresh handler (send_count = 1) with num_retry = 3 any run of
expired checks performs exactly min(number of checks, 2) resends, so two
resends after the initial send. -/
theorem deviceRefresh_bounded_retry (s : DeviceRefresh) (t : Nat) (ts : List Nat) :
    (s.expire_time ≤ t → s.send_count < s.num_retry →
      DeviceRefresh.is_expired s t
        = ({ s with send_count := s.send_count + 1 }, true, [.resend s.msg]))
    ∧ (s.expire_time ≤ t → s.num_retry ≤ s.send_count →
      DeviceRefresh.is_expired s t = (s, true, []))
    ∧ (s.send_count = 1 → s.num_retry = 3 → (∀ u ∈ ts, s.expire_time ≤ u) →
      countResends (iterateExpired s ts).2 = min ts.length 2) := by
  refine ⟨?_, ?_, ?_⟩
  · intro ht hc
    have hb : baseIsExpired s.expire_time t = true := by
      simp [baseIsExpired, ht]
    simp [DeviceRefresh.is_expired, hb, hc]
  · intro ht hc
    have hb : baseIsExpired s.expire_time t = true := by
      simp [baseIsExpired, ht]
    have hc2 : ¬ s.send_count < s.num_retry := by omega
    simp [DeviceRefresh.is_expired, hb, hc2]
  · intro h1 h3 hts
    rw [countResends_iterateExpired ts s hts, h1, h3]

/-- C4 witness at a concrete handler: deadline 10, send_count 1,
num_retry 3; the first expired check resends, and three expired checks
yield exactly two resends in total. -/
theorem deviceRefresh_bounded_retry_witness :
    DeviceRefresh.is_expired refreshEx 10
      = ({ refreshEx with send_count := refreshEx.send_count + 1 }, true,
         [.resend refreshEx.msg])
    ∧ countResends (iterateExpired refreshEx [10, 11, 12]).2 = min 3 2 := by
  have h := deviceRefresh_bounded_retry refreshEx 10 [10, 11, 12]
  exact ⟨h.1 (by decide) (by decide), h.2.2 rfl rfl (by decide)⟩

/-- C5: freshness short-circuit.  With force = false and a database delta
reported current, a matching refresh reply produces only the
device.handle_refresh call (no db.clear, no dump request, no deferred
set_delta) and returns FINISHED; and a matching reply invokes
device.handle_refresh in either freshness branch. -/
theorem deviceRefresh_freshness_short_circuit (s : DeviceRefresh)
    (ft : FlagsType) (c1 c2 : Byte) :
    (s.force = false → s.dbIsCurrent c1 = true →
      DeviceRefresh.msg_received s (.inpStandard s.addr ft c1 c2)
        = ({ s with send_count := s.num_retry }, .FINISHED,
           [.handleRefresh (.inpStandard s.addr ft c1 c2)]))
    ∧ RefreshEffect.handleRefresh (.inpStandard s.addr ft c1 c2)
        ∈ (DeviceRefresh.msg_received s (.inpStandard s.addr ft c1 c2)).2.2 := by
  constructor
  · intro hf hcur
    simp [DeviceRefresh.msg_received, hf, hcur]
  · by_cases h : s.force = false ∧ s.dbIsCurrent c1 = true <;>
      simp [DeviceRefresh.msg_received, h]

/-- C5 witness: concrete handler with force = false and an
always-current database oracle. -/
theorem deviceRefresh_freshness_short_circuit_witness :
    DeviceRefresh.msg_received refreshEx (.inpStandard refreshEx.addr .directAck 0x01 0x22)
      = ({ refreshEx with send_count := refreshEx.num_retry }, .FINISHED,
         [.handleRefresh (.inpStandard refreshEx.addr .directAck 0x01 0x22)]) :=
  (deviceRefresh_freshness_short_circuit refreshEx .directAck 0x01 0x22).1 rfl rfl

/-- C6: a StandardCmd handler returns CONTINUE on an outbound-standard
echo exactly when both the destination address and cmd1 match the captured
values, regardless of the ack flag; otherwise it returns UNKNOWN; the
state is unchanged and the callback is never invoked on an echo. -/
theorem standardCmd_echo_continue_iff_match (s : StandardCmd) (toA : Addr)
    (c1 c2 : Byte) (ack : Bool) :
    StandardCmd.msg_received s (.outStandard toA c1 c2 ack)
      = (s,
         if toA = s.addr ∧ c1 = s.cmd then HandlerResult.CONTINUE
         else HandlerResult.UNKNOWN,
         []) := by
  by_cases h : toA = s.addr ∧ c1 = s.cmd <;> simp [StandardCmd.msg_received, h]

/-- C7: an inbound standard message not matching source address and cmd1
returns UNKNOWN with no callback and unchanged state; a matching inbound
message invokes the callback with that message and returns FINISHED
unconditionally; hence after a non-matching offer, a subsequent matching
offer still finishes with the callback invoked. -/
theorem standardCmd_unclaimed_transparency (s : StandardCmd)
    (f1 : Addr) (ft1 : FlagsType) (c1 d1 : Byte) (ft2 : FlagsType) (d2 : Byte) :
    (¬ (f1 = s.addr ∧ c1 = s.cmd) →
      StandardCmd.msg_received s (.inpStandard f1 ft1 c1 d1) = (s, .UNKNOWN, []))
    ∧ StandardCmd.msg_received s (.inpStandard s.addr ft2 s.cmd d2)
        = (s, .FINISHED, [.inpStandard s.addr ft2 s.cmd d2])
    ∧ (¬ (f1 = s.addr ∧ c1 = s.cmd) →
      StandardCmd.msg_received
          (StandardCmd.msg_received s (.inpStandard f1 ft1 c1 d1)).1
          (.inpStandard s.addr ft2 s.cmd d2)
        = (s, .FINISHED, [.inpStandard s.addr ft2 s.cmd d2])) := by
  refine ⟨?_, ?_, ?_⟩
  · intro h
    simp [StandardCmd.msg_received, h]
  · simp [StandardCmd.msg_received]
  · intro h
    have h1 : StandardCmd.msg_received s (.inpStandard f1 ft1 c1 d1)
        = (s, .UNKNOWN, []) := by
      simp [StandardCmd.msg_received, h]
    rw [h1]
    simp [StandardCmd.msg_received]

/-- C7 witness: the handler expecting (9, 0x11) leaves a reply from
address 8 unclaimed and then still finishes on the matching reply. -/
theorem standardCmd_unclaimed_transparency_witness :
    StandardCmd.msg_received
        (StandardCmd.msg_received stdCmdEx (.inpStandard 8 .directAck 0x11 0)).1
        (.inpStandard stdCmdEx.addr .directAck stdCmdEx.cmd 0)
      = (stdCmdEx, .FINISHED, [.inpStandard stdCmdEx.addr .directAck stdCmdEx.cmd 0]) :=
  (standardCmd_unclaimed_transparency stdCmdEx 8 .directAck 0x11 0 .directAck 0).2.2
    (by decide)

/-- C9: before the deadline an is_expired check returns false, mutates
nothing and sends nothing; repeated pre-deadline checks leave the handler
exactly as it was with an empty effect trace. -/
theorem deviceRefresh_pre_deadline_no_effect (s : DeviceRefresh) (t : Nat)
    (ts : List Nat) :
    (t < s.expire_time → DeviceRefresh.is_expired s t = (s, false, []))
    ∧ ((∀ u ∈ ts, u < s.expire_time) → iterateExpired s ts = (s, [])) := by
  constructor
  · intro h
    have h1 : ¬ baseIsExpired s.expire_time t = true := by
      simp [baseIsExpired]
      omega
    simp [DeviceRefresh.is_expired, h1]
  · intro h
    exact iterateExpired_pre_deadline ts s h

/-- C9 witness: the concrete handler with deadline 10 is untouched by
checks at times 5 and then 3, 5, 7. -/
theorem deviceRefresh_pre_deadline_no_effect_witness :
    DeviceRefresh.is_expired refreshEx 5 = (refreshEx, false, [])
    ∧ iterateExpired refreshEx [3, 5, 7] = (refreshEx, []) := by
  have h := deviceRefresh_pre_deadline_no_effect refreshEx 5 [3, 5, 7]
  exact ⟨h.1 (by decide), h.2 (by decide)⟩

/-- C8: wire constants.  In the stale branch the dump request built by
DeviceRefresh is exactly an extended direct message to the device address
with cmd1 = 0x2f, sub-command byte 0x00 and a payload of 14 zero bytes;
and DeviceDbModify claims an echo or reply (returns non-UNKNOWN) only when
its cmd1 equals 0x2f. -/
theorem wire_opcode_and_dump_request (s : DeviceRefresh) (ft : FlagsType)
    (c1 c2 : Byte) (sdb : DeviceDbModify) (m : InsteonMsg) :
    (s.force = true ∨ s.dbIsCurrent c1 = false →
      DeviceRefresh.msg_received s (.inpStandard s.addr ft c1 c2)
        = ({ s with send_count := s.num_retry }, .FINISHED,
           [.handleRefresh (.inpStandard s.addr ft c1 c2), .dbClear,
            .sendDbDump (.outExtended s.addr 0x2f 0x00 (List.replicate 14 0) false) c1]))
    ∧ ((DeviceDbModify.msg_received sdb m).2.1 ≠ .UNKNOWN → InsteonMsg.cmd1 m = 0x2f) := by
  constructor
  · intro h
    have hcond : ¬ (s.force = false ∧ s.dbIsCurrent c1 = true) := by
      rcases h with h | h <;> simp [h]
    simp [DeviceRefresh.msg_received, hcond, OutExtended.direct]
  · intro hm
    cases m with
    | outStandard toA c1m c2m ack => exact absurd rfl hm
    | outExtended toA c1m c2m d ack =>
        by_cases h : toA = sdb.db_addr ∧ c1m = 0x2f
        · simpa [InsteonMsg.cmd1] using h.2
        · exact absurd (by simp [DeviceDbModify.msg_received, h]) hm
    | inpStandard f ftm c1m c2m =>
        by_cases h : f = sdb.db_addr ∧ c1m = 0x2f
        · simpa [InsteonMsg.cmd1] using h.2
        · exact absurd (by simp [DeviceDbModify.msg_received, h]) hm

/-- C8 witness: a force = true handler builds the concrete dump request,
and a claimed direct-nak reply to the example chain carries cmd1 = 0x2f. -/
theorem wire_opcode_and_dump_request_witness :
    DeviceRefresh.msg_received refreshStaleEx (.inpStandard refreshStaleEx.addr .directAck 0x05 0)
      = ({ refreshStaleEx with send_count := refreshStaleEx.num_retry }, .FINISHED,
         [.handleRefresh (.inpStandard refreshStaleEx.addr .directAck 0x05 0), .dbClear,
          .sendDbDump (.outExtended refreshStaleEx.addr 0x2f 0x00 (List.replicate 14 0) false) 0x05])
    ∧ InsteonMsg.cmd1 (.inpStandard 7 .directNak 0x2f 0) = 0x2f := by
  have h := wire_opcode_and_dump_request refreshStaleEx .directAck 0x05 0 dbModEx
    (.inpStandard 7 .directNak 0x2f 0)
  exact ⟨h.1 (Or.inl rfl), h.2 (by decide)⟩

/-- C10: from construction (send_count = 1) with num_retry at least 1 the
invariant send_count at most num_retry holds and is preserved by is_expired
(which increments only below num_retry) and by msg_received (which only
ever leaves send_count unchanged or sets it to num_retry). -/
theorem deviceRefresh_send_count_invariant (a : Addr) (pm : InsteonMsg)
    (force : Bool) (nr et : Nat) (oracle : Byte → Bool) (s : DeviceRefresh)
    (t : Nat) (m : InsteonMsg) :
    (1 ≤ nr → (DeviceRefresh.init a pm force nr et oracle).send_count
        ≤ (DeviceRefresh.init a pm force nr et oracle).num_retry)
    ∧ (s.send_count ≤ s.num_retry →
        (DeviceRefresh.is_expired s t).1.send_count
          ≤ (DeviceRefresh.is_expired s t).1.num_retry)
    ∧ (s.send_count ≤ s.num_retry →
        (DeviceRefresh.msg_received s m).1.send_count
          ≤ (DeviceRefresh.msg_received s m).1.num_retry)
    ∧ ((DeviceRefresh.msg_received s m).1.send_count = s.send_count
        ∨ (DeviceRefresh.msg_received s m).1.send_count = s.num_retry) := by
  have hcases : (DeviceRefresh.msg_received s m).1 = s
      ∨ (DeviceRefresh.msg_received s m).1 = { s with send_count := s.num_retry } := by
    cases m with
    | outStandard toA c1m c2m ack =>
        by_cases hto : toA = s.addr
        · cases ack <;> simp [DeviceRefresh.msg_received, hto]
        · simp [DeviceRefresh.msg_received, hto]
    | outExtended toA c1m c2m d ack =>
        by_cases hto : toA = s.addr
        · cases ack <;> simp [DeviceRefresh.msg_received, hto]
        · simp [DeviceRefresh.msg_received, hto]
    | inpStandard f ftm c1m c2m =>
        by_cases hf : f = s.addr
        · by_cases hcur : s.force = false ∧ s.dbIsCurrent c1m = true <;>
            simp [DeviceRefresh.msg_received, hf, hcur]
        · simp [DeviceRefresh.msg_received, hf]
  refine ⟨?_, ?_, ?_, ?_⟩
  · intro h
    simpa [DeviceRefresh.init] using h
  · intro h
    by_cases hb : baseIsExpired s.expire_time t = true
    · by_cases hc : s.send_count < s.num_retry <;>
        simp [DeviceRefresh.is_expired, hb, hc] <;> omega
    · simp [DeviceRefresh.is_expired, hb]
      exact h
  · intro h
    rcases hcases with h1 | h1 <;> rw [h1]
    exact h
  · rcases hcases with h1 | h1 <;> rw [h1]
    · exact Or.inl rfl
    · exact Or.inr rfl

/-- C10 witness: concrete construction with num_retry = 3, and one
expired check preserving the invariant. -/
theorem deviceRefresh_send_count_invariant_witness :
    (DeviceRefresh.init 3 (.outStandard 3 0x19 0 false) false 3 10 (fun _ => true)).send_count
      ≤ (DeviceRefresh.init 3 (.outStandard 3 0x19 0 false) false 3 10 (fun _ => true)).num_retry
    ∧ (DeviceRefresh.is_expired refreshEx 10).1.send_count
      ≤ (DeviceRefresh.is_expired refreshEx 10).1.num_retry := by
  have h := deviceRefresh_send_count_invariant 3 (.outStandard 3 0x19 0 false) false 3 10
    (fun _ => true) refreshEx 10 (.outStandard 3 0 0 true)
  exact ⟨h.1 (by decide), h.2.1 (by decide)⟩

/-- C1: over any message sequence offered to a DeviceDbModify chain, the
completion callback fires exactly once when the run is terminal and never
otherwise; every success callback carries the first-submitted
(construction) entry and happens only once all N = 1 + queue-length steps
have been confirmed (one add_entry per confirmed step); every failure
callback carries no entry. -/
theorem deviceDbModify_on_done_exactly_once (s : DeviceDbModify)
    (ms : List InsteonMsg) :
    (onDoneList (runDbModify s ms).trace).length
        = (if (runDbModify s ms).finished = true then 1 else 0)
    ∧ (∀ p ∈ onDoneList (runDbModify s ms).trace,
        (p = (true, some s.orig_entry)
          ∧ countAddEntry (runDbModify s ms).trace = s.next.length + 1)
        ∨ p = (false, none)) :=
  ⟨(runDbModify_spec ms s).1, (runDbModify_spec ms s).2.1⟩

/-- C1 witness: the example two-step chain driven to success fires the
callback once, with the construction entry, after both steps confirmed. -/
theorem deviceDbModify_on_done_exactly_once_witness :
    (onDoneList (runDbModify dbModEx dbModMsgsEx).trace).length = 1
    ∧ (((true, (some entryA : Option DeviceEntry)) = (true, some dbModEx.orig_entry)
        ∧ countAddEntry (runDbModify dbModEx dbModMsgsEx).trace = dbModEx.next.length + 1)
       ∨ (true, (some entryA : Option DeviceEntry)) = (false, none)) := by
  have h := deviceDbModify_on_done_exactly_once dbModEx dbModMsgsEx
  exact ⟨h.1.trans (by decide), h.2 (true, some entryA) (by decide)⟩

/-- C2: over any run, the entries passed to db.add_entry are exactly the
first applied-step prefix of the submitted entries in FIFO order
(construction entry first, then the queued entries); each msg_received
call performs exactly one add_entry when it processes a claimed
direct-ack and none otherwise (in particular never on a NAK or
unexpected-kind reply); on a direct-ack with non-empty queue the popped
head message is sent with the handler re-installed and no callback fires
in that call; and entries appended by add_update sit in the queue in call
order. -/
theorem deviceDbModify_fifo_add_entry (s : DeviceDbModify)
    (ms : List InsteonMsg) (m : InsteonMsg) (c2 : Byte) :
    addEntryList (runDbModify s ms).trace
      = (s.entry :: s.next.map Prod.snd).take (countAddEntry (runDbModify s ms).trace)
    ∧ countAddEntry (DeviceDbModify.msg_received s m).2.2
        = (if isClaimedDirectAck s m = true then 1 else 0)
    ∧ (∀ m0 e0 rest, s.next = (m0, e0) :: rest →
        DeviceDbModify.msg_received s (.inpStandard s.db_addr .directAck 0x2f c2)
          = ({ s with entry := e0, next := rest }, .FINISHED,
             [.addEntry s.entry, .send m0]))
    ∧ (∀ (a : Addr) (e : DeviceEntry) (us : List (InsteonMsg × DeviceEntry)),
        (List.foldl (fun st p => DeviceDbModify.add_update st p.1 p.2)
            (DeviceDbModify.init a e) us).next = us) := by
  refine ⟨(runDbModify_spec ms s).2.2, ?_, ?_, ?_⟩
  · cases m with
    | outStandard toA c1m c2m ack =>
        simp [DeviceDbModify.msg_received, isClaimedDirectAck, countAddEntry,
          addEntryList]
    | outExtended toA c1m c2m d ack =>
        by_cases h : toA = s.db_addr ∧ c1m = 0x2f
        · cases ack <;>
            simp [DeviceDbModify.msg_received, isClaimedDirectAck, countAddEntry,
              addEntryList, h]
        · simp [DeviceDbModify.msg_received, isClaimedDirectAck, countAddEntry,
            addEntryList, h]
    | inpStandard f ftm c1m c2m =>
        by_cases h : f = s.db_addr ∧ c1m = 0x2f
        · by_cases hack : ftm = FlagsType.directAck
          · cases hnext : s.next with
            | nil =>
                simp [DeviceDbModify.msg_received, isClaimedDirectAck, countAddEntry,
                  addEntryList, h, hack, hnext]
            | cons p rest =>
                simp [DeviceDbModify.msg_received, isClaimedDirectAck, countAddEntry,
                  addEntryList, h, hack, hnext]
          · have hnc : ¬ (f = s.db_addr ∧ c1m = 0x2f ∧ ftm = FlagsType.directAck) :=
              fun hx => hack hx.2.2
            by_cases hnak : ftm = FlagsType.directNak <;>
              simp [DeviceDbModify.msg_received, isClaimedDirectAck, countAddEntry,
                addEntryList, h, hack, hnak, hnc]
        · have hnc : ¬ (f = s.db_addr ∧ c1m = 0x2f ∧ ftm = FlagsType.directAck) :=
            fun hx => h ⟨hx.1, hx.2.1⟩
          simp [DeviceDbModify.msg_received, isClaimedDirectAck, countAddEntry,
            addEntryList, h, hnc]
  · intro m0 e0 rest hnext
    simp [DeviceDbModify.msg_received, hnext]
  · intro a e us
    have hfold : ∀ (us : List (InsteonMsg × DeviceEntry)) (st : DeviceDbModify),
        (List.foldl (fun st p => DeviceDbModify.add_update st p.1 p.2) st us).next
          = st.next ++ us := by
      intro us
      induction us with
      | nil => intro st; simp
      | cons u us ih =>
          intro st
          rw [List.foldl_cons, ih]
          simp [DeviceDbModify.add_update]
    simp [hfold, DeviceDbModify.init]

/-- C2 witness: on the example chain a direct-ack with a pending queue
applies the current entry and sends the queued head with self
re-installed, and a direct-nak performs no add_entry. -/
theorem deviceDbModify_fifo_add_entry_witness :
    DeviceDbModify.msg_received dbModEx (.inpStandard dbModEx.db_addr .directAck 0x2f 0)
      = ({ dbModEx with entry := entryB, next := [] }, .FINISHED,
         [.addEntry dbModEx.entry, .send chainMsgB])
    ∧ countAddEntry
        (DeviceDbModify.msg_received dbModEx (.inpStandard 7 .directNak 0x2f 0)).2.2 = 0 := by
  have h := deviceDbModify_fifo_add_entry dbModEx dbModMsgsEx
    (.inpStandard 7 .directNak 0x2f 0) 0
  exact ⟨h.2.2.1 chainMsgB entryB [] (by decide), h.2.1.trans (by decide)⟩

end InsteonMqtt
